import Mathlib

/-!
Shallow embedding of `color_change_plugin.py`: a G-code post-processor that
injects color-change commands based on accumulated filament weight, and the
theorems settling the specification claims about it.

Numbers are modelled as exact rationals (Python floats are idealized to `ℚ`).
Lines are `String`s; the character-level helpers below mirror Python's `str`
methods and the three regular expressions used by the script.
-/

namespace ColorChange

attribute [local semireducible] Rat.add Rat.mul Rat.sub Rat.inv

/-- ASCII whitespace as recognized by Python's `str.strip` and by the regex
class `\s` (restricted to the ASCII range, which covers G-code input). -/
def isPySpace (c : Char) : Bool :=
  c == ' ' || c == '\t' || c == '\n' || c == '\r' || c == '\x0b' || c == '\x0c'

def lstripAux : List Char → List Char
  | [] => []
  | c :: cs => if isPySpace c then lstripAux cs else c :: cs

/-- Python `line.strip()` on the character list of a line. -/
def pyStrip (s : List Char) : List Char :=
  (lstripAux ((lstripAux s).reverse)).reverse

/-- Python `line.rstrip('\n')`. -/
def rstripNl (s : List Char) : List Char :=
  (s.reverse.dropWhile (fun c => c == '\n')).reverse

def rstripNlStr (line : String) : String :=
  ⟨rstripNl line.data⟩

/-- Python `str.lower()` (ASCII letters). -/
def lowerList (s : List Char) : List Char := s.map Char.toLower

/-- Substring containment, Python's `pat in s`. -/
def containsSub (pat : List Char) : List Char → Bool
  | [] => pat.isEmpty
  | c :: rest => List.isPrefixOf pat (c :: rest) || containsSub pat rest

/-- Value of a digit string (most significant first). -/
def digitsVal (ds : List Char) : ℕ :=
  ds.foldl (fun acc c => 10 * acc + (c.toNat - 48)) 0

/-- Value of `ip . fp` as a rational (integer part, fractional digits). -/
def parseDecimal (ip fp : List Char) : ℚ :=
  (digitsVal ip : ℚ) + (digitsVal fp : ℚ) / (10 : ℚ) ^ fp.length

/-- Greedy parse of `\d+\.?\d*` (the tail of the `E` and `F` value patterns),
assuming the list starts with a digit; the dot is consumed even when no digit
follows it, exactly as the regex does. -/
def parseUnsignedNum (s : List Char) : ℚ :=
  match s.dropWhile Char.isDigit with
  | '.' :: r2 => parseDecimal (s.takeWhile Char.isDigit) (r2.takeWhile Char.isDigit)
  | _ => parseDecimal (s.takeWhile Char.isDigit) []

/-- Greedy parse of `-?\d+\.?\d*`. -/
def parseSignedNum (s : List Char) : ℚ :=
  match s with
  | '-' :: rest => -(parseUnsignedNum rest)
  | _ => parseUnsignedNum s

/-- Whether `-?\d+` can start matching at the head of the list. -/
def numStart : List Char → Bool
  | '-' :: c :: _ => c.isDigit
  | c :: _ => c.isDigit
  | [] => false

/-- Leftmost match of `(?<=\sE)(-?\d+\.?\d*)`: `p2` and `p1` are the two
characters immediately preceding the current position (the lookbehind). -/
def findEVal (p2 p1 : Option Char) : List Char → Option ℚ
  | [] => none
  | c :: rest =>
    if (match p2 with | some w => isPySpace w | none => false) && p1 == some 'E'
        && numStart (c :: rest) then
      some (parseSignedNum (c :: rest))
    else findEVal p1 (some c) rest

/-- The script's `extract_extrusion_value`: the number following a
whitespace-delimited `E` marker, `0.0` when the regex finds no match (the
regex never produces an unparsable match, so the script's `ValueError`
fallback to `0.0` is unreachable). -/
def extract_extrusion_value (s : List Char) : ℚ :=
  (findEVal none none s).getD 0

/-- Leftmost match of `F(\d+\.?\d*)`. -/
def findFVal : List Char → Option ℚ
  | [] => none
  | c :: rest =>
    if c == 'F' && (match rest with | d :: _ => d.isDigit | [] => false) then
      some (parseUnsignedNum rest)
    else findFVal rest

def extract_feedrate (s : List Char) : Option ℚ := findFVal s

/-- Feedrate filter of the scan: skip the move when a feedrate is present and
strictly exceeds the cutoff. -/
def feedrateSkip (thr : ℚ) (s : List Char) : Bool :=
  match findFVal s with
  | some f => decide (thr < f)
  | none => false

/-- Greedy parse of `\d+(\.\d+)?` (the spool-weight number pattern): here the
dot is consumed only when at least one digit follows it. -/
def parseHeaderNum (s : List Char) : ℚ :=
  match s.dropWhile Char.isDigit with
  | '.' :: r2 =>
    if (r2.takeWhile Char.isDigit).isEmpty then
      parseDecimal (s.takeWhile Char.isDigit) []
    else
      parseDecimal (s.takeWhile Char.isDigit) (r2.takeWhile Char.isDigit)
  | _ => parseDecimal (s.takeWhile Char.isDigit) []

/-- Leftmost match of `(\d+(\.\d+)?)`. -/
def findFirstNum : List Char → Option ℚ
  | [] => none
  | c :: rest => if c.isDigit then some (parseHeaderNum (c :: rest)) else findFirstNum rest

/-- Per-line step of `extract_spool_weight_from_header`: a line whose lowered
form contains "spool weight" yields its first number, times 1000 when the
lowered line contains "kg"; a phrase line without a number yields nothing. -/
def spoolWeightOfLine (line : String) : Option ℚ :=
  if containsSub (("spool weight").data) (lowerList line.data) then
    match findFirstNum line.data with
    | some w =>
      some (if containsSub (("kg").data) (lowerList line.data) then w * 1000 else w)
    | none => none
  else none

def extract_spool_weight_from_header (lines : List String) : Option ℚ :=
  lines.findSome? spoolWeightOfLine

/-- Round to the nearest integer, ties to even (Python float formatting). -/
def round_half_even (x : ℚ) : ℤ :=
  if x - (⌊x⌋ : ℚ) < 1 / 2 then ⌊x⌋
  else if (1 / 2 : ℚ) < x - (⌊x⌋ : ℚ) then ⌊x⌋ + 1
  else if ⌊x⌋ % 2 = 0 then ⌊x⌋ else ⌊x⌋ + 1

def pad2 (n : ℕ) : String :=
  if n < 10 then ("0") ++ Nat.repr n else Nat.repr n

def fmtCenti (n : ℕ) : String :=
  Nat.repr (n / 100) ++ (".") ++ pad2 (n % 100)

/-- Python formatting with the `:.2f` format specifier. -/
def fmt2 (q : ℚ) : String :=
  if q < 0 then ("-") ++ fmtCenti (round_half_even (-q * 100)).toNat
  else fmtCenti (round_half_even (q * 100)).toNat

/-- Trimmed line starts with "; layer" (layer marker, layer-based mode). -/
def isLayerMarker (s : List Char) : Bool := List.isPrefixOf (("; layer").data) s

/-- Trimmed line starts with "G92" and contains the character 'E'. -/
def isG92E (s : List Char) : Bool := List.isPrefixOf (("G92").data) s && s.contains 'E'

/-- Trimmed line starts with "G1" and contains the character 'E'. -/
def isG1E (s : List Char) : Bool := List.isPrefixOf (("G1").data) s && s.contains 'E'

/-- The line mentions at least one of the positional axes X, Y, Z. -/
def hasAxis (s : List Char) : Bool := s.contains 'X' || s.contains 'Y' || s.contains 'Z'

/-- Configuration bundle handed to `process_gcode` (spool weight passed
separately, as in the script; debug options do not affect the output). -/
structure Config where
  conversion_factor : ℚ
  extrusion_mode : String
  color_change_command : String
  safety_margin : ℚ
  feedrate_threshold : ℚ
  scale : ℚ
  layer_based : Bool
deriving DecidableEq

/-- Mutable locals of the scan loop. -/
structure ScanState where
  cumulative_weight : ℚ
  total_weight : ℚ
  last_extrusion : ℚ
deriving DecidableEq

/-- The script's `extrusion_mode == 'relative'` comparison. -/
def isRelative (cfg : Config) : Bool := cfg.extrusion_mode == ("relative")

/-- Extrusion delta of a move: the extracted value in relative mode, the
difference against `last_extrusion` in absolute mode. -/
def extrusionDelta (cfg : Config) (s : List Char) (last : ℚ) : ℚ :=
  if isRelative cfg then extract_extrusion_value s
  else extract_extrusion_value s - last

/-- New `last_extrusion` after a counted or zero-delta move: unchanged in
relative mode, the extracted value in absolute mode. -/
def newLast (cfg : Config) (s : List Char) (last : ℚ) : ℚ :=
  if isRelative cfg then last else extract_extrusion_value s

def injectLine (cmd : String) (t : ℚ) : String :=
  cmd ++ (" ; Color change triggered after ~") ++ fmt2 t ++ ("g used")

def layerInjectLine (cmd : String) (t : ℚ) : String :=
  cmd ++ (" ; Color change triggered after ~") ++ fmt2 t ++ ("g used at layer change")

/-- Fuel that over-approximates the iteration count of the crossing loop. -/
def loopFuel (c t : ℚ) : ℕ := (⌊c / t⌋).toNat + 1

/-- Fuelled transcription of the script's crossing loop
`while cumulative_weight >= trigger_weight: emit; subtract`. -/
def injectLoop (inj : String) (t : ℚ) : ℕ → ℚ → List String × ℚ
  | 0, c => ([], c)
  | n + 1, c =>
    if t ≤ c then
      let r := injectLoop inj t n (c - t)
      (inj :: r.1, r.2)
    else ([], c)

/-- Per-line body of the scan loop in `process_gcode`: the lines emitted for
this input line, and the updated scan state. -/
def processLine (cfg : Config) (conv trigger : ℚ) (st : ScanState) (line : String) :
    List String × ScanState :=
  let s := pyStrip line.data
  if cfg.layer_based && isLayerMarker s then
    if trigger ≤ st.cumulative_weight then
      ([layerInjectLine cfg.color_change_command trigger, rstripNlStr line],
       ⟨st.cumulative_weight - trigger, st.total_weight, st.last_extrusion⟩)
    else ([rstripNlStr line], st)
  else if isG92E s then
    ([rstripNlStr line], ⟨st.cumulative_weight, st.total_weight, extract_extrusion_value s⟩)
  else if isG1E s then
    if !hasAxis s then ([rstripNlStr line], st)
    else if feedrateSkip cfg.feedrate_threshold s then ([rstripNlStr line], st)
    else if 0 < extrusionDelta cfg s st.last_extrusion then
      let wd := extrusionDelta cfg s st.last_extrusion * conv
      if cfg.layer_based then
        ([rstripNlStr line],
         ⟨st.cumulative_weight + wd, st.total_weight + wd, newLast cfg s st.last_extrusion⟩)
      else
        let r := injectLoop (injectLine cfg.color_change_command trigger) trigger
          (loopFuel (st.cumulative_weight + wd) trigger) (st.cumulative_weight + wd)
        (r.1 ++ [rstripNlStr line],
         ⟨r.2, st.total_weight + wd, newLast cfg s st.last_extrusion⟩)
    else
      ([rstripNlStr line],
       ⟨st.cumulative_weight, st.total_weight, newLast cfg s st.last_extrusion⟩)
  else ([rstripNlStr line], st)

/-- The scan loop of `process_gcode`, started from an arbitrary state. -/
def scanAux (cfg : Config) (conv trigger : ℚ) (st : ScanState) :
    List String → List String × ScanState
  | [] => ([], st)
  | line :: rest =>
    let p := processLine cfg conv trigger st line
    let r := scanAux cfg conv trigger p.2 rest
    (p.1 ++ r.1, r.2)

/-- The script's `process_gcode`: output lines and total weight; `conv` and
`trigger_weight` are computed from the arguments exactly as in the source. -/
def process_gcode (spool_weight : ℚ) (cfg : Config) (lines : List String) :
    List String × ℚ :=
  let r := scanAux cfg (cfg.conversion_factor * cfg.scale)
    (spool_weight * (1 - cfg.safety_margin)) ⟨0, 0, 0⟩ lines
  (r.1, r.2.total_weight)

/-- Final scan state of a run (the script keeps it in loop locals). -/
def scan_state (spool_weight : ℚ) (cfg : Config) (lines : List String) : ScanState :=
  (scanAux cfg (cfg.conversion_factor * cfg.scale)
    (spool_weight * (1 - cfg.safety_margin)) ⟨0, 0, 0⟩ lines).2

/-- Spool-weight resolution in `main`: an explicit value takes precedence,
otherwise the header is searched. -/
def resolve_spool_weight (explicit : Option ℚ) (lines : List String) : Option ℚ :=
  match explicit with
  | some w => some w
  | none => extract_spool_weight_from_header lines

def summaryLine (total : ℚ) : String :=
  ("; TOTAL FILAMENT WEIGHT USED: ") ++ fmt2 total ++ ("g")

/-- The script's `main` without the file system: `none` models the fatal exit
(non-zero status, no output written) when no spool weight resolves; otherwise
the processed lines followed by the single summary line. -/
def run_main (explicit : Option ℚ) (cfg : Config) (lines : List String) :
    Option (List String) :=
  match resolve_spool_weight explicit lines with
  | none => none
  | some w =>
    let r := process_gcode w cfg lines
    some (r.1 ++ [summaryLine r.2])

/-- Decidable transcript of the hypothesis "no qualifying move line has a
positive extrusion delta": it mirrors the scan's classification and its
`last_extrusion` tracking, without accumulating any weight. -/
def noPositiveDelta (cfg : Config) (last : ℚ) : List String → Bool
  | [] => true
  | line :: rest =>
    let s := pyStrip line.data
    if cfg.layer_based && isLayerMarker s then noPositiveDelta cfg last rest
    else if isG92E s then noPositiveDelta cfg (extract_extrusion_value s) rest
    else if isG1E s then
      if !hasAxis s then noPositiveDelta cfg last rest
      else if feedrateSkip cfg.feedrate_threshold s then noPositiveDelta cfg last rest
      else decide (extrusionDelta cfg s last ≤ 0) &&
        noPositiveDelta cfg (newLast cfg s last) rest
    else noPositiveDelta cfg last rest

/-- Relative-mode configuration with unit conversion, used by concrete runs. -/
def cfgRel : Config := ⟨1, ("relative"), ("M600"), 0, 3000, 1, false⟩

/-- Layer-based variant of `cfgRel`. -/
def cfgRelLayer : Config := ⟨1, ("relative"), ("M600"), 0, 3000, 1, true⟩

/-- Absolute-mode variant of `cfgRel`. -/
def cfgAbs : Config := ⟨1, ("absolute"), ("M600"), 0, 3000, 1, false⟩

/-- Layer-based absolute-mode variant. -/
def cfgAbsLayer : Config := ⟨1, ("absolute"), ("M600"), 0, 3000, 1, true⟩

/-! ### Behaviour of the crossing loop -/

/-- With positive trigger weight and enough fuel, the crossing loop emits one
injected line per threshold crossed, `⌊c / t⌋` many, and subtracts as often. -/
lemma injectLoop_run (inj : String) (t : ℚ) (ht : 0 < t) :
    ∀ (n : ℕ) (c : ℚ), (⌊c / t⌋).toNat ≤ n →
      injectLoop inj t n c =
        (List.replicate ((⌊c / t⌋).toNat) inj, c - ((⌊c / t⌋).toNat : ℚ) * t) := by
  intro n
  induction n with
  | zero =>
    intro c h
    have h0 : (⌊c / t⌋).toNat = 0 := Nat.le_zero.mp h
    simp [injectLoop, h0]
  | succ n ih =>
    intro c h
    by_cases hc : t ≤ c
    · have h1 : 1 ≤ ⌊c / t⌋ := by
        rw [Int.le_floor]
        push_cast
        rw [le_div_iff₀ ht]
        linarith
      have hsub : ⌊(c - t) / t⌋ = ⌊c / t⌋ - 1 := by
        rw [sub_div, div_self (ne_of_gt ht), Int.floor_sub_one]
      have h2 : (⌊(c - t) / t⌋).toNat ≤ n := by
        rw [hsub]; omega
      have hk : (⌊c / t⌋).toNat = (⌊(c - t) / t⌋).toNat + 1 := by
        rw [hsub]; omega
      have ihc := ih (c - t) h2
      simp only [injectLoop, if_pos hc]
      rw [ihc, hk, List.replicate_succ]
      simp only [Prod.mk.injEq, List.cons.injEq, true_and]
      push_cast
      ring
    · have hlt : c < t := not_le.mp hc
      have h0 : (⌊c / t⌋).toNat = 0 := by
        have : ⌊c / t⌋ < 1 := by
          rw [Int.floor_lt]
          push_cast
          rw [div_lt_one ht]
          exact hlt
        omega
      simp [injectLoop, hc, h0]

/-- After the crossing loop, the cumulative weight is below the trigger. -/
lemma injectLoop_lt (inj : String) (t c : ℚ) (ht : 0 < t) :
    (injectLoop inj t (loopFuel c t) c).2 < t := by
  rw [injectLoop_run inj t ht (loopFuel c t) c (Nat.le_succ _)]
  by_cases h0 : ⌊c / t⌋ ≤ 0
  · have hz : (⌊c / t⌋).toNat = 0 := by omega
    have hlt : c < t := by
      have hf : ((⌊c / t⌋ : ℤ) : ℚ) ≤ 0 := by exact_mod_cast h0
      have h1 : c / t < 1 :=
        lt_of_lt_of_le (Int.lt_floor_add_one (c / t)) (by linarith)
      exact (div_lt_one ht).mp h1
    simpa [hz] using hlt
  · push_neg at h0
    have hcast : ((⌊c / t⌋).toNat : ℚ) = ((⌊c / t⌋ : ℤ) : ℚ) := by
      exact_mod_cast Int.toNat_of_nonneg (le_of_lt h0)
    have h2 : c / t < ((⌊c / t⌋ : ℤ) : ℚ) + 1 := Int.lt_floor_add_one (c / t)
    have h1 : c < (((⌊c / t⌋ : ℤ) : ℚ) + 1) * t := by
      calc c = c / t * t := by field_simp
      _ < (((⌊c / t⌋ : ℤ) : ℚ) + 1) * t := mul_lt_mul_of_pos_right h2 ht
    dsimp only
    rw [hcast]
    linarith

/-- For any fuel, the loop emits at most `fuel` many lines. -/
lemma injectLoop_length (inj : String) (t : ℚ) :
    ∀ (n : ℕ) (c : ℚ), (injectLoop inj t n c).1.length ≤ n := by
  intro n
  induction n with
  | zero => intro c; simp [injectLoop]
  | succ n ih =>
    intro c
    by_cases hc : t ≤ c
    · simp only [injectLoop, if_pos hc, List.length_cons]
      exact Nat.succ_le_succ (ih (c - t))
    · simp [injectLoop, hc]

/-! ### Classification facts -/

/-- A trimmed line starting with "G1" is neither a layer marker nor a G92. -/
lemma isG1E_shape {s : List Char} (h : isG1E s = true) :
    isLayerMarker s = false ∧ isG92E s = false := by
  have hp : List.isPrefixOf (("G1").data) s = true := (Bool.and_eq_true_iff.mp h).1
  have hpre : (("G1").data) <+: s := List.isPrefixOf_iff_prefix.mp hp
  obtain ⟨t, rfl⟩ := hpre
  exact ⟨rfl, rfl⟩

/-- A trimmed line starting with "G92" is not a layer marker. -/
lemma isG92E_shape {s : List Char} (h : isG92E s = true) :
    isLayerMarker s = false := by
  have hp : List.isPrefixOf (("G92").data) s = true := (Bool.and_eq_true_iff.mp h).1
  have hpre : (("G92").data) <+: s := List.isPrefixOf_iff_prefix.mp hp
  obtain ⟨t, rfl⟩ := hpre
  exact rfl

/-! ### Per-branch characterization of `processLine` -/

/-- Layer-marker line, layer-based mode, threshold reached: one injected line
and a single subtraction. -/
lemma processLine_marker_inject (cfg : Config) (conv trigger : ℚ) (st : ScanState)
    (line : String) (hlb : cfg.layer_based = true)
    (hm : isLayerMarker (pyStrip line.data) = true)
    (hge : trigger ≤ st.cumulative_weight) :
    processLine cfg conv trigger st line =
      ([layerInjectLine cfg.color_change_command trigger, rstripNlStr line],
       ⟨st.cumulative_weight - trigger, st.total_weight, st.last_extrusion⟩) := by
  simp [processLine, hlb, hm, hge]

/-- Layer-marker line, layer-based mode, threshold not reached: unchanged. -/
lemma processLine_marker_pass (cfg : Config) (conv trigger : ℚ) (st : ScanState)
    (line : String) (hlb : cfg.layer_based = true)
    (hm : isLayerMarker (pyStrip line.data) = true)
    (hlt : ¬ trigger ≤ st.cumulative_weight) :
    processLine cfg conv trigger st line = ([rstripNlStr line], st) := by
  simp [processLine, hlb, hm, hlt]

/-- G92 counter reset: only `last_extrusion` changes, no weight accounting. -/
lemma processLine_g92 (cfg : Config) (conv trigger : ℚ) (st : ScanState)
    (line : String) (hg : isG92E (pyStrip line.data) = true) :
    processLine cfg conv trigger st line =
      ([rstripNlStr line],
       ⟨st.cumulative_weight, st.total_weight,
        extract_extrusion_value (pyStrip line.data)⟩) := by
  have hml := isG92E_shape hg
  simp [processLine, hml, hg]

/-- G1 move without any X/Y/Z axis: skipped entirely, in either mode. -/
lemma processLine_skip_axis (cfg : Config) (conv trigger : ℚ) (st : ScanState)
    (line : String) (hG1 : isG1E (pyStrip line.data) = true)
    (hax : hasAxis (pyStrip line.data) = false) :
    processLine cfg conv trigger st line = ([rstripNlStr line], st) := by
  obtain ⟨hml, hg92⟩ := isG1E_shape hG1
  simp [processLine, hml, hg92, hG1, hax]

/-- G1 move whose feedrate exceeds the cutoff: skipped entirely. -/
lemma processLine_skip_feedrate (cfg : Config) (conv trigger : ℚ) (st : ScanState)
    (line : String) (hG1 : isG1E (pyStrip line.data) = true)
    (hax : hasAxis (pyStrip line.data) = true)
    (hfr : feedrateSkip cfg.feedrate_threshold (pyStrip line.data) = true) :
    processLine cfg conv trigger st line = ([rstripNlStr line], st) := by
  obtain ⟨hml, hg92⟩ := isG1E_shape hG1
  simp [processLine, hml, hg92, hG1, hax, hfr]

/-- Qualifying G1 move with non-positive delta: only `last_extrusion` moves. -/
lemma processLine_nonpos (cfg : Config) (conv trigger : ℚ) (st : ScanState)
    (line : String) (hG1 : isG1E (pyStrip line.data) = true)
    (hax : hasAxis (pyStrip line.data) = true)
    (hfr : feedrateSkip cfg.feedrate_threshold (pyStrip line.data) = false)
    (hd : ¬ 0 < extrusionDelta cfg (pyStrip line.data) st.last_extrusion) :
    processLine cfg conv trigger st line =
      ([rstripNlStr line],
       ⟨st.cumulative_weight, st.total_weight,
        newLast cfg (pyStrip line.data) st.last_extrusion⟩) := by
  obtain ⟨hml, hg92⟩ := isG1E_shape hG1
  simp [processLine, hml, hg92, hG1, hax, hfr, hd]

/-- Qualifying G1 move with positive delta, layer-based mode: weight is
accumulated but no injection happens here. -/
lemma processLine_counted_layer (cfg : Config) (conv trigger : ℚ) (st : ScanState)
    (line : String) (hlb : cfg.layer_based = true)
    (hG1 : isG1E (pyStrip line.data) = true)
    (hax : hasAxis (pyStrip line.data) = true)
    (hfr : feedrateSkip cfg.feedrate_threshold (pyStrip line.data) = false)
    (hd : 0 < extrusionDelta cfg (pyStrip line.data) st.last_extrusion) :
    processLine cfg conv trigger st line =
      ([rstripNlStr line],
       ⟨st.cumulative_weight + extrusionDelta cfg (pyStrip line.data) st.last_extrusion * conv,
        st.total_weight + extrusionDelta cfg (pyStrip line.data) st.last_extrusion * conv,
        newLast cfg (pyStrip line.data) st.last_extrusion⟩) := by
  obtain ⟨hml, hg92⟩ := isG1E_shape hG1
  simp [processLine, hlb, hml, hg92, hG1, hax, hfr, hd]

/-- Qualifying G1 move with positive delta, non-layer mode: weight is
accumulated and the crossing loop runs before the move line is emitted. -/
lemma processLine_counted (cfg : Config) (conv trigger : ℚ) (st : ScanState)
    (line : String) (hlb : cfg.layer_based = false)
    (hG1 : isG1E (pyStrip line.data) = true)
    (hax : hasAxis (pyStrip line.data) = true)
    (hfr : feedrateSkip cfg.feedrate_threshold (pyStrip line.data) = false)
    (hd : 0 < extrusionDelta cfg (pyStrip line.data) st.last_extrusion) :
    processLine cfg conv trigger st line =
      ((injectLoop (injectLine cfg.color_change_command trigger) trigger
          (loopFuel (st.cumulative_weight +
            extrusionDelta cfg (pyStrip line.data) st.last_extrusion * conv) trigger)
          (st.cumulative_weight +
            extrusionDelta cfg (pyStrip line.data) st.last_extrusion * conv)).1
        ++ [rstripNlStr line],
       ⟨(injectLoop (injectLine cfg.color_change_command trigger) trigger
          (loopFuel (st.cumulative_weight +
            extrusionDelta cfg (pyStrip line.data) st.last_extrusion * conv) trigger)
          (st.cumulative_weight +
            extrusionDelta cfg (pyStrip line.data) st.last_extrusion * conv)).2,
        st.total_weight + extrusionDelta cfg (pyStrip line.data) st.last_extrusion * conv,
        newLast cfg (pyStrip line.data) st.last_extrusion⟩) := by
  obtain ⟨hml, hg92⟩ := isG1E_shape hG1
  simp [processLine, hlb, hml, hg92, hG1, hax, hfr, hd]

/-- Any other line is emitted unchanged with the state untouched. -/
lemma processLine_other (cfg : Config) (conv trigger : ℚ) (st : ScanState)
    (line : String)
    (h1 : (cfg.layer_based && isLayerMarker (pyStrip line.data)) = false)
    (h2 : isG92E (pyStrip line.data) = false)
    (h3 : isG1E (pyStrip line.data) = false) :
    processLine cfg conv trigger st line = ([rstripNlStr line], st) := by
  simp [processLine, h1, h2, h3]

/-! ### Scan-level lemmas -/

lemma scanAux_nil (cfg : Config) (conv trigger : ℚ) (st : ScanState) :
    scanAux cfg conv trigger st [] = ([], st) := rfl

lemma scanAux_cons (cfg : Config) (conv trigger : ℚ) (st : ScanState)
    (l : String) (ls : List String) :
    scanAux cfg conv trigger st (l :: ls) =
      ((processLine cfg conv trigger st l).1 ++
        (scanAux cfg conv trigger (processLine cfg conv trigger st l).2 ls).1,
       (scanAux cfg conv trigger (processLine cfg conv trigger st l).2 ls).2) := rfl

/-- In non-layer mode with a positive trigger, each processed line keeps the
cumulative weight strictly below the trigger. -/
lemma processLine_cumulative_lt (cfg : Config) (conv trigger : ℚ) (st : ScanState)
    (line : String) (hlb : cfg.layer_based = false) (ht : 0 < trigger)
    (hst : st.cumulative_weight < trigger) :
    (processLine cfg conv trigger st line).2.cumulative_weight < trigger := by
  by_cases h92 : isG92E (pyStrip line.data) = true
  · rw [processLine_g92 cfg conv trigger st line h92]
    exact hst
  by_cases hG1 : isG1E (pyStrip line.data) = true
  · by_cases hax : hasAxis (pyStrip line.data) = true
    · by_cases hfr : feedrateSkip cfg.feedrate_threshold (pyStrip line.data) = true
      · rw [processLine_skip_feedrate cfg conv trigger st line hG1 hax hfr]
        exact hst
      · have hfr' : feedrateSkip cfg.feedrate_threshold (pyStrip line.data) = false := by
          simpa using hfr
        by_cases hd : 0 < extrusionDelta cfg (pyStrip line.data) st.last_extrusion
        · rw [processLine_counted cfg conv trigger st line hlb hG1 hax hfr' hd]
          exact injectLoop_lt _ _ _ ht
        · rw [processLine_nonpos cfg conv trigger st line hG1 hax hfr' hd]
          exact hst
    · have hax' : hasAxis (pyStrip line.data) = false := by simpa using hax
      rw [processLine_skip_axis cfg conv trigger st line hG1 hax']
      exact hst
  · have h92' : isG92E (pyStrip line.data) = false := by simpa using h92
    have hG1' : isG1E (pyStrip line.data) = false := by simpa using hG1
    rw [processLine_other cfg conv trigger st line (by rw [hlb]; rfl) h92' hG1']
    exact hst

/-- The cumulative-weight bound is an invariant of the whole scan in
non-layer mode. -/
lemma scanAux_cumulative_lt (cfg : Config) (conv trigger : ℚ)
    (hlb : cfg.layer_based = false) (ht : 0 < trigger) :
    ∀ (lines : List String) (st : ScanState), st.cumulative_weight < trigger →
      (scanAux cfg conv trigger st lines).2.cumulative_weight < trigger := by
  intro lines
  induction lines with
  | nil => intro st h; simpa [scanAux] using h
  | cons l ls ih =>
    intro st h
    rw [scanAux_cons]
    exact ih _ (processLine_cumulative_lt cfg conv trigger st l hlb ht h)

/-- A scan over lines none of which is a counted positive-delta move leaves
the output equal to the trimmed input and the weights untouched. -/
lemma scanAux_noPositiveDelta (cfg : Config) (conv trigger : ℚ) :
    ∀ (lines : List String) (st : ScanState),
      noPositiveDelta cfg st.last_extrusion lines = true →
      st.cumulative_weight < trigger →
      (scanAux cfg conv trigger st lines).1 = lines.map rstripNlStr ∧
      (scanAux cfg conv trigger st lines).2.cumulative_weight = st.cumulative_weight ∧
      (scanAux cfg conv trigger st lines).2.total_weight = st.total_weight := by
  intro lines
  induction lines with
  | nil => intro st h hc; simp [scanAux]
  | cons l ls ih =>
    intro st h hc
    simp only [noPositiveDelta] at h
    rw [scanAux_cons, List.map_cons]
    by_cases hmk : (cfg.layer_based && isLayerMarker (pyStrip l.data)) = true
    · obtain ⟨hlb, hm⟩ := Bool.and_eq_true_iff.mp hmk
      rw [if_pos hmk] at h
      rw [processLine_marker_pass cfg conv trigger st l hlb hm (not_le.mpr hc)]
      obtain ⟨h1, h2, h3⟩ := ih st h hc
      exact ⟨by rw [h1]; rfl, h2, h3⟩
    · rw [if_neg hmk] at h
      by_cases h92 : isG92E (pyStrip l.data) = true
      · rw [if_pos h92] at h
        rw [processLine_g92 cfg conv trigger st l h92]
        obtain ⟨h1, h2, h3⟩ :=
          ih ⟨st.cumulative_weight, st.total_weight,
            extract_extrusion_value (pyStrip l.data)⟩ h hc
        exact ⟨by rw [h1]; rfl, h2, h3⟩
      · rw [if_neg h92] at h
        by_cases hG1 : isG1E (pyStrip l.data) = true
        · rw [if_pos hG1] at h
          by_cases hax : hasAxis (pyStrip l.data) = true
          · rw [hax] at h
            simp only [Bool.not_true, if_neg (by simp : ¬ (false : Bool) = true)] at h
            by_cases hfr : feedrateSkip cfg.feedrate_threshold (pyStrip l.data) = true
            · rw [if_pos hfr] at h
              rw [processLine_skip_feedrate cfg conv trigger st l hG1 hax hfr]
              obtain ⟨h1, h2, h3⟩ := ih st h hc
              exact ⟨by rw [h1]; rfl, h2, h3⟩
            · rw [if_neg hfr] at h
              have hfr' : feedrateSkip cfg.feedrate_threshold (pyStrip l.data) = false := by
                simpa using hfr
              obtain ⟨hd, hrest⟩ := Bool.and_eq_true_iff.mp h
              have hd' : ¬ 0 < extrusionDelta cfg (pyStrip l.data) st.last_extrusion := by
                have := of_decide_eq_true hd
                exact not_lt.mpr this
              rw [processLine_nonpos cfg conv trigger st l hG1 hax hfr' hd']
              obtain ⟨h1, h2, h3⟩ :=
                ih ⟨st.cumulative_weight, st.total_weight,
                  newLast cfg (pyStrip l.data) st.last_extrusion⟩ hrest hc
              exact ⟨by rw [h1]; rfl, h2, h3⟩
          · have hax' : hasAxis (pyStrip l.data) = false := by simpa using hax
            rw [hax'] at h
            simp only [Bool.not_false, if_pos rfl] at h
            rw [processLine_skip_axis cfg conv trigger st l hG1 hax']
            obtain ⟨h1, h2, h3⟩ := ih st h hc
            exact ⟨by rw [h1]; rfl, h2, h3⟩
        · rw [if_neg hG1] at h
          have h92' : isG92E (pyStrip l.data) = false := by simpa using h92
          have hG1' : isG1E (pyStrip l.data) = false := by simpa using hG1
          rw [processLine_other cfg conv trigger st l (by simpa using hmk) h92' hG1']
          obtain ⟨h1, h2, h3⟩ := ih st h hc
          exact ⟨by rw [h1]; rfl, h2, h3⟩

/-- `List.findSome?` skips a prefix on which the function yields nothing. -/
lemma findSome?_skip {α β : Type} (f : α → Option β) :
    ∀ (pfx : List α), (∀ p ∈ pfx, f p = none) →
      ∀ (l : List α), List.findSome? f (pfx ++ l) = List.findSome? f l := by
  intro pfx
  induction pfx with
  | nil => intro _ l; rfl
  | cons a as ih =>
    intro h l
    have ha : f a = none := h a (List.mem_cons_self a as)
    have : List.findSome? f ((a :: as) ++ l) = List.findSome? f (as ++ l) := by
      simp [List.findSome?_cons, ha]
    rw [this, ih (fun p hp => h p (List.mem_cons_of_mem a hp)) l]

/-! ### Claim theorems -/

/-- C1: in non-layer-gated mode, for every qualifying linear-move line whose
positive extrusion delta pushes the cumulative weight into
`[k·trigger_weight, (k+1)·trigger_weight)` with `trigger_weight > 0`, exactly
`k` injected directive lines are emitted immediately before that move's
unchanged line, and the cumulative weight is reduced by `k·trigger_weight`
(instantiated by the 25 g move against a 10 g trigger in the witness). -/
theorem c1_threshold_crossing (cfg : Config) (conv trigger : ℚ) (st : ScanState)
    (line : String) (k : ℕ)
    (hlb : cfg.layer_based = false)
    (hG1 : isG1E (pyStrip line.data) = true)
    (hax : hasAxis (pyStrip line.data) = true)
    (hfr : feedrateSkip cfg.feedrate_threshold (pyStrip line.data) = false)
    (ht : 0 < trigger)
    (hd : 0 < extrusionDelta cfg (pyStrip line.data) st.last_extrusion)
    (hk1 : (k : ℚ) * trigger ≤ st.cumulative_weight +
      extrusionDelta cfg (pyStrip line.data) st.last_extrusion * conv)
    (hk2 : st.cumulative_weight +
      extrusionDelta cfg (pyStrip line.data) st.last_extrusion * conv <
        ((k : ℚ) + 1) * trigger) :
    processLine cfg conv trigger st line =
      (List.replicate k (injectLine cfg.color_change_command trigger) ++ [rstripNlStr line],
       ⟨st.cumulative_weight + extrusionDelta cfg (pyStrip line.data) st.last_extrusion * conv
          - (k : ℚ) * trigger,
        st.total_weight + extrusionDelta cfg (pyStrip line.data) st.last_extrusion * conv,
        newLast cfg (pyStrip line.data) st.last_extrusion⟩) := by
  have hfl : ⌊(st.cumulative_weight +
      extrusionDelta cfg (pyStrip line.data) st.last_extrusion * conv) / trigger⌋ = (k : ℤ) := by
    rw [Int.floor_eq_iff]
    constructor
    · rw [le_div_iff₀ ht]
      exact_mod_cast hk1
    · rw [div_lt_iff₀ ht]
      push_cast
      exact hk2
  have htn : (⌊(st.cumulative_weight +
      extrusionDelta cfg (pyStrip line.data) st.last_extrusion * conv) / trigger⌋).toNat = k := by
    rw [hfl]
    omega
  rw [processLine_counted cfg conv trigger st line hlb hG1 hax hfr hd,
    injectLoop_run (injectLine cfg.color_change_command trigger) trigger ht
      (loopFuel (st.cumulative_weight +
        extrusionDelta cfg (pyStrip line.data) st.last_extrusion * conv) trigger)
      (st.cumulative_weight + extrusionDelta cfg (pyStrip line.data) st.last_extrusion * conv)
      (Nat.le_succ _),
    htn]

/-- Witness for C1: trigger weight 10 g, one relative move contributing 25 g,
so with `k = 2` exactly two directive lines precede the unchanged move line
and the cumulative weight ends at 5 g. -/
theorem c1_threshold_crossing_witness :
    (0 : ℚ) < 10 ∧
    processLine cfgRel 1 10 ⟨0, 0, 0⟩ ("G1 X1 E25") =
      (List.replicate 2 (injectLine ("M600") 10) ++ [("G1 X1 E25")], ⟨5, 25, 0⟩) := by
  refine ⟨by norm_num, ?_⟩
  have h := c1_threshold_crossing cfgRel 1 10 ⟨0, 0, 0⟩ ("G1 X1 E25") 2 rfl (by decide)
    (by decide) (by decide) (by norm_num) (by decide) (by decide) (by decide)
  exact h.trans (by decide)

/-- C2 counterexample: in layer-gated mode the injection step subtracts the
trigger only once, so with spool weight 10 g, margin 0 (trigger 10 g) and a
single 25 g move before a layer marker, the cumulative weight immediately
after the marker's injection step is 15 g — not strictly below the trigger —
even though the injected directive was emitted at that step. -/
theorem c2_below_trigger_counterexample :
    cfgRelLayer.layer_based = true ∧
    (0 : ℚ) < 10 ∧ (0 : ℚ) ≤ cfgRelLayer.safety_margin ∧ cfgRelLayer.safety_margin < 1 ∧
    (scan_state 10 cfgRelLayer [("G1 X1 E25"), ("; layer")]).cumulative_weight = 15 ∧
    (process_gcode 10 cfgRelLayer [("G1 X1 E25"), ("; layer")]).1 =
      [("G1 X1 E25"), layerInjectLine ("M600") 10, ("; layer")] ∧
    ¬ (scan_state 10 cfgRelLayer [("G1 X1 E25"), ("; layer")]).cumulative_weight <
        10 * (1 - cfgRelLayer.safety_margin) := by
  exact ⟨rfl, by decide, by decide, by decide, by decide, by decide, by decide⟩

/-- C2 amended: with positive spool weight and safety margin below 1, in
NON-layer-gated mode the cumulative weight stays strictly below the trigger
weight after every processed line — in particular immediately after every
injection step; in layer-gated mode a single subtraction per marker can
leave it at or above the trigger. -/
theorem c2_nonlayer_below_trigger (cfg : Config) (w : ℚ)
    (lines : List String) (n : ℕ)
    (hlb : cfg.layer_based = false) (hw : 0 < w)
    (hm0 : 0 ≤ cfg.safety_margin) (hm : cfg.safety_margin < 1) :
    (scanAux cfg (cfg.conversion_factor * cfg.scale) (w * (1 - cfg.safety_margin))
        ⟨0, 0, 0⟩ (lines.take n)).2.cumulative_weight < w * (1 - cfg.safety_margin) := by
  have ht : 0 < w * (1 - cfg.safety_margin) := mul_pos hw (by linarith)
  exact scanAux_cumulative_lt cfg _ _ hlb ht (lines.take n) ⟨0, 0, 0⟩ ht

/-- Witness for the amended C2: a 25 g move against a 10 g trigger leaves the
cumulative weight at 5 g, strictly below the trigger. -/
theorem c2_nonlayer_below_trigger_witness :
    cfgRel.layer_based = false ∧ (0 : ℚ) < 10 ∧ (0 : ℚ) ≤ cfgRel.safety_margin ∧
    cfgRel.safety_margin < 1 ∧
    (scanAux cfgRel (cfgRel.conversion_factor * cfgRel.scale)
        (10 * (1 - cfgRel.safety_margin)) ⟨0, 0, 0⟩
        ([("G1 X1 E25")].take 1)).2.cumulative_weight <
      10 * (1 - cfgRel.safety_margin) :=
  ⟨rfl, by decide, by decide, by decide,
    c2_nonlayer_below_trigger cfgRel 10 [("G1 X1 E25")] 1 rfl (by decide) (by decide)
      (by decide)⟩

/-- C3: in absolute extrusion mode a G92 counter-reset line sets
`last_extrusion` to its extracted E value with no weight accounting; a
subsequent qualifying move's delta is the extracted value minus
`last_extrusion`, after which `last_extrusion` becomes the extracted value;
concretely, G92 E0 then G1 X10 E5 then G1 X20 E8 yields deltas 5 and 3
(running totals 5 then 8 with unit conversion), not 5 and 8. -/
theorem c3_absolute_mode_deltas :
    (∀ (cfg : Config) (conv trigger : ℚ) (st : ScanState) (line : String),
      isG92E (pyStrip line.data) = true →
      processLine cfg conv trigger st line =
        ([rstripNlStr line],
         ⟨st.cumulative_weight, st.total_weight,
          extract_extrusion_value (pyStrip line.data)⟩)) ∧
    (∀ (cfg : Config) (conv trigger : ℚ) (st : ScanState) (line : String),
      cfg.extrusion_mode = ("absolute") →
      isG1E (pyStrip line.data) = true →
      hasAxis (pyStrip line.data) = true →
      feedrateSkip cfg.feedrate_threshold (pyStrip line.data) = false →
      (processLine cfg conv trigger st line).2.last_extrusion =
        extract_extrusion_value (pyStrip line.data) ∧
      (processLine cfg conv trigger st line).2.total_weight =
        st.total_weight +
          (if 0 < extract_extrusion_value (pyStrip line.data) - st.last_extrusion then
            (extract_extrusion_value (pyStrip line.data) - st.last_extrusion) * conv
          else 0)) ∧
    (process_gcode 1000 cfgAbs [("G92 E0"), ("G1 X10 E5")]).2 = 5 ∧
    (process_gcode 1000 cfgAbs [("G92 E0"), ("G1 X10 E5"), ("G1 X20 E8")]).2 = 8 := by
  refine ⟨?_, ?_, by decide, by decide⟩
  · intro cfg conv trigger st line hg
    exact processLine_g92 cfg conv trigger st line hg
  · intro cfg conv trigger st line hm hG1 hax hfr
    have hrel : isRelative cfg = false := by
      rw [isRelative, hm]; decide
    have hdelta : extrusionDelta cfg (pyStrip line.data) st.last_extrusion =
        extract_extrusion_value (pyStrip line.data) - st.last_extrusion := by
      rw [extrusionDelta, hrel]; simp
    have hlast : newLast cfg (pyStrip line.data) st.last_extrusion =
        extract_extrusion_value (pyStrip line.data) := by
      rw [newLast, hrel]; simp
    by_cases hd : 0 < extrusionDelta cfg (pyStrip line.data) st.last_extrusion
    · have hd' : 0 < extract_extrusion_value (pyStrip line.data) - st.last_extrusion := by
        rwa [hdelta] at hd
      by_cases hlb : cfg.layer_based = true
      · rw [processLine_counted_layer cfg conv trigger st line hlb hG1 hax hfr hd]
        exact ⟨hlast, by rw [hdelta, if_pos hd']⟩
      · have hlb' : cfg.layer_based = false := by simpa using hlb
        rw [processLine_counted cfg conv trigger st line hlb' hG1 hax hfr hd]
        exact ⟨hlast, by rw [hdelta, if_pos hd']⟩
    · have hd' : ¬ 0 < extract_extrusion_value (pyStrip line.data) - st.last_extrusion := by
        rwa [hdelta] at hd
      rw [processLine_nonpos cfg conv trigger st line hG1 hax hfr hd]
      exact ⟨hlast, by rw [if_neg hd']; ring⟩

/-- Witness for C3: G92 E0 resets the tracker; then a move to E8 with
`last_extrusion = 5` leaves `last_extrusion = 8`. -/
theorem c3_absolute_mode_deltas_witness :
    processLine cfgAbs 1 970 ⟨0, 0, 3⟩ ("G92 E0") = ([("G92 E0")], ⟨0, 0, 0⟩) ∧
    (processLine cfgAbs 1 970 ⟨0, 5, 5⟩ ("G1 X20 E8")).2.last_extrusion = 8 := by
  constructor
  · exact (c3_absolute_mode_deltas.1 cfgAbs 1 970 ⟨0, 0, 3⟩ ("G92 E0")
      (by decide)).trans (by decide)
  · have h := (c3_absolute_mode_deltas.2.1 cfgAbs 1 970 ⟨0, 5, 5⟩ ("G1 X20 E8") rfl
      (by decide) (by decide) (by decide)).1
    exact h.trans (by decide)

/-- C4 counterexample: with layer-gated mode enabled, the move "G1 E5"
(positive extracted delta 5 but no X/Y/Z axis) is skipped and emitted
unchanged with no weight accounting at all, so the axis-presence filter does
apply in layer-gated mode, contrary to the claim. -/
theorem c4_axis_filter_counterexample :
    cfgRelLayer.layer_based = true ∧
    extract_extrusion_value (pyStrip (("G1 E5").data)) = 5 ∧
    process_gcode 10 cfgRelLayer [("G1 E5")] = ([("G1 E5")], 0) ∧
    scan_state 10 cfgRelLayer [("G1 E5")] = ⟨0, 0, 0⟩ := by
  exact ⟨rfl, by decide, by decide, by decide⟩

/-- C4 amended: the axis-presence filter applies in BOTH modes — a
linear-move line containing an extrusion field but none of X, Y, Z is
treated as a non-extruding move (no weight accounting, no state change) and
emitted unchanged, regardless of the layer-gated flag. -/
theorem c4_axis_filter_both_modes (cfg : Config) (conv trigger : ℚ)
    (st : ScanState) (line : String)
    (hG1 : isG1E (pyStrip line.data) = true)
    (hax : hasAxis (pyStrip line.data) = false) :
    processLine cfg conv trigger st line = ([rstripNlStr line], st) :=
  processLine_skip_axis cfg conv trigger st line hG1 hax

/-- Witness for the amended C4, in layer-gated mode. -/
theorem c4_axis_filter_both_modes_witness :
    processLine cfgRelLayer 1 10 ⟨0, 0, 0⟩ ("G1 E5") = ([("G1 E5")], ⟨0, 0, 0⟩) :=
  (c4_axis_filter_both_modes cfgRelLayer 1 10 ⟨0, 0, 0⟩ ("G1 E5") (by decide)
    (by decide)).trans (by decide)

/-- C5: a qualifying move whose feedrate strictly exceeds the cutoff
contributes zero to both cumulative and total weight — even when its
extrusion delta is positive — and its line is emitted unchanged. -/
theorem c5_feedrate_filter (cfg : Config) (conv trigger : ℚ) (st : ScanState)
    (line : String)
    (hG1 : isG1E (pyStrip line.data) = true)
    (hax : hasAxis (pyStrip line.data) = true)
    (hfr : feedrateSkip cfg.feedrate_threshold (pyStrip line.data) = true) :
    (processLine cfg conv trigger st line).1 = [rstripNlStr line] ∧
    (processLine cfg conv trigger st line).2.cumulative_weight = st.cumulative_weight ∧
    (processLine cfg conv trigger st line).2.total_weight = st.total_weight := by
  rw [processLine_skip_feedrate cfg conv trigger st line hG1 hax hfr]
  exact ⟨rfl, rfl, rfl⟩

/-- Witness for C5: a move with F4000 under cutoff 3000 and positive delta 5
contributes nothing. -/
theorem c5_feedrate_filter_witness :
    feedrateSkip cfgRel.feedrate_threshold (pyStrip (("G1 X10 E5 F4000").data)) = true ∧
    (0 : ℚ) < extract_extrusion_value (pyStrip (("G1 X10 E5 F4000").data)) ∧
    (processLine cfgRel 1 10 ⟨0, 0, 0⟩ ("G1 X10 E5 F4000")).1 = [("G1 X10 E5 F4000")] ∧
    (processLine cfgRel 1 10 ⟨0, 0, 0⟩ ("G1 X10 E5 F4000")).2.cumulative_weight = 0 ∧
    (processLine cfgRel 1 10 ⟨0, 0, 0⟩ ("G1 X10 E5 F4000")).2.total_weight = 0 := by
  have h := c5_feedrate_filter cfgRel 1 10 ⟨0, 0, 0⟩ ("G1 X10 E5 F4000") (by decide)
    (by decide) (by decide)
  exact ⟨by decide, by decide, h.1.trans (by decide), h.2.1.trans (by decide),
    h.2.2.trans (by decide)⟩

/-- C6: spool-weight resolution — an explicit value takes precedence over the
header; otherwise the first line whose lowered form contains "spool weight"
and carries a number yields that first number, multiplied by 1000 when the
lowered line contains "kg"; "; spool weight: 1 kg" resolves to 1000 and
"; spool weight: 500g" to 500; when neither source resolves, the run is a
fatal error producing no output. -/
theorem c6_spool_weight_resolution :
    (∀ (w : ℚ) (lines : List String), resolve_spool_weight (some w) lines = some w) ∧
    (∀ (pfx : List String) (line : String) (rest : List String) (w : ℚ),
      (∀ p ∈ pfx, containsSub (("spool weight").data) (lowerList p.data) = false) →
      containsSub (("spool weight").data) (lowerList line.data) = true →
      findFirstNum line.data = some w →
      extract_spool_weight_from_header (pfx ++ line :: rest) =
        some (if containsSub (("kg").data) (lowerList line.data) then w * 1000 else w)) ∧
    extract_spool_weight_from_header [("; spool weight: 1 kg")] = some 1000 ∧
    extract_spool_weight_from_header [("; spool weight: 500g")] = some 500 ∧
    (∀ (cfg : Config) (lines : List String),
      extract_spool_weight_from_header lines = none → run_main none cfg lines = none) := by
  refine ⟨fun w lines => rfl, ?_, by decide, by decide, ?_⟩
  · intro pfx line rest w hpfx hphrase hnum
    have hstep : ∀ p ∈ pfx, spoolWeightOfLine p = none := by
      intro p hp
      simp [spoolWeightOfLine, hpfx p hp]
    rw [extract_spool_weight_from_header,
      findSome?_skip spoolWeightOfLine pfx hstep (line :: rest)]
    have hline : spoolWeightOfLine line =
        some (if containsSub (("kg").data) (lowerList line.data) then w * 1000 else w) := by
      simp [spoolWeightOfLine, hphrase, hnum]
    simp [List.findSome?_cons, hline]
  · intro cfg lines hnone
    simp [run_main, resolve_spool_weight, hnone]

/-- Witness for C6: an explicit 750 g beats a 1 kg header, and a header-only
run resolves from its first phrase line. -/
theorem c6_spool_weight_resolution_witness :
    resolve_spool_weight (some 750) [("; spool weight: 1 kg")] = some 750 ∧
    extract_spool_weight_from_header
      [("; printer: X1"), ("; spool weight: 500g"), ("; spool weight: 1 kg")] = some 500 ∧
    run_main none cfgRel [("; no weight here")] = none := by
  refine ⟨c6_spool_weight_resolution.1 750 [("; spool weight: 1 kg")], ?_, ?_⟩
  · have h := c6_spool_weight_resolution.2.1 [("; printer: X1")] ("; spool weight: 500g")
      [("; spool weight: 1 kg")] 500 (by decide) (by decide) (by decide)
    exact h.trans (by decide)
  · exact c6_spool_weight_resolution.2.2.2.2 cfgRel [("; no weight here")] (by decide)

/-- C7: for an input with no counted positive-delta extrusion move (under the
configuration precondition spool weight > 0, margin < 1), the output equals
the input lines each trimmed of trailing newlines, followed by exactly one
summary line reporting a total weight of 0.00 g. -/
theorem c7_no_extrusion_identity (cfg : Config) (w : ℚ) (lines : List String)
    (hw : 0 < w) (hm : cfg.safety_margin < 1)
    (hnp : noPositiveDelta cfg 0 lines = true) :
    run_main (some w) cfg lines =
      some (lines.map rstripNlStr ++ [("; TOTAL FILAMENT WEIGHT USED: 0.00g")]) ∧
    (process_gcode w cfg lines).2 = 0 := by
  have ht : 0 < w * (1 - cfg.safety_margin) := mul_pos hw (by linarith)
  obtain ⟨h1, h2, h3⟩ := scanAux_noPositiveDelta cfg (cfg.conversion_factor * cfg.scale)
    (w * (1 - cfg.safety_margin)) lines ⟨0, 0, 0⟩ hnp ht
  have hout : (process_gcode w cfg lines).1 = lines.map rstripNlStr := h1
  have htot : (process_gcode w cfg lines).2 = 0 := h3
  refine ⟨?_, htot⟩
  have hrm : run_main (some w) cfg lines =
      some ((process_gcode w cfg lines).1 ++ [summaryLine (process_gcode w cfg lines).2]) := rfl
  rw [hrm, hout, htot]
  have hsum : summaryLine 0 = ("; TOTAL FILAMENT WEIGHT USED: 0.00g") := by decide
  rw [hsum]

/-- Witness for C7: a run with comments, a G92, an axis-less move, a
retraction and a travel-speed move produces its input back plus the
zero-weight summary line. -/
theorem c7_no_extrusion_identity_witness :
    (0 : ℚ) < 100 ∧ cfgRel.safety_margin < 1 ∧
    noPositiveDelta cfgRel 0
      [("; header"), ("G92 E5"), ("G1 E3"), ("G1 X1 E-2"), ("G1 X2 E9 F9000"),
        ("M104 S200")] = true ∧
    run_main (some 100) cfgRel
      [("; header"), ("G92 E5"), ("G1 E3"), ("G1 X1 E-2"), ("G1 X2 E9 F9000"),
        ("M104 S200")] =
      some [("; header"), ("G92 E5"), ("G1 E3"), ("G1 X1 E-2"), ("G1 X2 E9 F9000"),
        ("M104 S200"), ("; TOTAL FILAMENT WEIGHT USED: 0.00g")] := by
  refine ⟨by decide, by decide, by decide, ?_⟩
  have h := (c7_no_extrusion_identity cfgRel 100
    [("; header"), ("G92 E5"), ("G1 E3"), ("G1 X1 E-2"), ("G1 X2 E9 F9000"),
      ("M104 S200")] (by decide) (by decide) (by decide)).1
  exact h.trans (by decide)

/-- C8: with a positive trigger weight the crossing loop stabilizes at the
`loopFuel` bound — running it with any larger fuel gives the same result, so
the while loop performs only finitely many iterations per qualifying line —
and any run of the loop emits at most `fuel` lines; the outer pass is a
structural recursion over the input list, hence bounded by input length. -/
theorem c8_termination :
    (∀ (inj : String) (t c : ℚ) (n : ℕ), 0 < t → loopFuel c t ≤ n →
      injectLoop inj t n c = injectLoop inj t (loopFuel c t) c) ∧
    (∀ (inj : String) (t : ℚ) (n : ℕ) (c : ℚ), (injectLoop inj t n c).1.length ≤ n) := by
  constructor
  · intro inj t c n ht hn
    rw [injectLoop_run inj t ht n c (le_trans (Nat.le_succ _) hn),
      injectLoop_run inj t ht (loopFuel c t) c (Nat.le_succ _)]
  · intro inj t n c
    exact injectLoop_length inj t n c

/-- Witness for C8: trigger 10, cumulative 25 — fuel 3 suffices and any
larger fuel agrees; at most five lines are emitted with fuel 5. -/
theorem c8_termination_witness :
    (0 : ℚ) < 10 ∧ loopFuel 25 10 ≤ 5 ∧
    injectLoop ("M600") 10 5 25 = injectLoop ("M600") 10 (loopFuel 25 10) 25 ∧
    (injectLoop ("M600") 10 5 25).1.length ≤ 5 :=
  ⟨by decide, by decide, c8_termination.1 ("M600") 10 25 5 (by decide) (by decide),
    c8_termination.2 ("M600") 10 5 25⟩

/-- C9: a feedrate-skipped move changes no scan state at all — cumulative
weight, total weight and `last_extrusion` are untouched — so in absolute mode
the skipped move's extrusion advance is attributed to the next counted move:
after G92 E0 and a skipped G1 X1 E5 F4000, the counted G1 X2 E8 contributes
8 g (8 − 0), not 3 g. -/
theorem c9_feedrate_skip_frame :
    (∀ (cfg : Config) (conv trigger : ℚ) (st : ScanState) (line : String),
      isG1E (pyStrip line.data) = true →
      hasAxis (pyStrip line.data) = true →
      feedrateSkip cfg.feedrate_threshold (pyStrip line.data) = true →
      processLine cfg conv trigger st line = ([rstripNlStr line], st)) ∧
    scan_state 1000 cfgAbs [("G92 E0"), ("G1 X1 E5 F4000")] = ⟨0, 0, 0⟩ ∧
    (process_gcode 1000 cfgAbs [("G92 E0"), ("G1 X1 E5 F4000"), ("G1 X2 E8")]).2 = 8 := by
  refine ⟨?_, by decide, by decide⟩
  intro cfg conv trigger st line hG1 hax hfr
  exact processLine_skip_feedrate cfg conv trigger st line hG1 hax hfr

/-- Witness for C9: the skipped fast move leaves an arbitrary state intact. -/
theorem c9_feedrate_skip_frame_witness :
    processLine cfgAbs 1 970 ⟨1, 2, 3⟩ ("G1 X1 E5 F4000") =
      ([("G1 X1 E5 F4000")], ⟨1, 2, 3⟩) :=
  (c9_feedrate_skip_frame.1 cfgAbs 1 970 ⟨1, 2, 3⟩ ("G1 X1 E5 F4000") (by decide)
    (by decide) (by decide)).trans (by decide)

/-- C10: any trimmed line starting with "G1" and containing 'E' anywhere is
classified as an extrusion move; with no parseable whitespace-preceded
E-number the extracted value is 0, and in absolute mode this 0 overwrites
`last_extrusion` — after G92 E7 a move containing only the word "FEED" resets
`last_extrusion` to 0, and a following G1 X2 E3 contributes 3 g against 0
instead of registering a retraction against 7. -/
theorem c10_e_anywhere_classification :
    (∀ s : List Char, findEVal none none s = none → extract_extrusion_value s = 0) ∧
    (∀ (cfg : Config) (conv trigger : ℚ) (st : ScanState) (line : String),
      cfg.extrusion_mode = ("absolute") →
      isG1E (pyStrip line.data) = true →
      hasAxis (pyStrip line.data) = true →
      feedrateSkip cfg.feedrate_threshold (pyStrip line.data) = false →
      findEVal none none (pyStrip line.data) = none →
      (processLine cfg conv trigger st line).2.last_extrusion = 0) ∧
    isG1E (pyStrip (("G1 X1 Y2 FEED").data)) = true ∧
    scan_state 1000 cfgAbs [("G92 E7"), ("G1 X1 Y2 FEED")] = ⟨0, 0, 0⟩ ∧
    (process_gcode 1000 cfgAbs [("G92 E7"), ("G1 X1 Y2 FEED"), ("G1 X2 E3")]).2 = 3 := by
  refine ⟨?_, ?_, by decide, by decide, by decide⟩
  · intro s h
    rw [extract_extrusion_value, h]
    rfl
  · intro cfg conv trigger st line hm hG1 hax hfr hnone
    have hrel : isRelative cfg = false := by
      rw [isRelative, hm]; decide
    have hlast : newLast cfg (pyStrip line.data) st.last_extrusion = 0 := by
      rw [newLast, hrel]
      simp [extract_extrusion_value, hnone]
    by_cases hd : 0 < extrusionDelta cfg (pyStrip line.data) st.last_extrusion
    · by_cases hlb : cfg.layer_based = true
      · rw [processLine_counted_layer cfg conv trigger st line hlb hG1 hax hfr hd]
        exact hlast
      · have hlb' : cfg.layer_based = false := by simpa using hlb
        rw [processLine_counted cfg conv trigger st line hlb' hG1 hax hfr hd]
        exact hlast
    · rw [processLine_nonpos cfg conv trigger st line hG1 hax hfr hd]
      exact hlast

/-- Witness for C10: the word "FEED" in a move line forces
`last_extrusion` from 7 down to 0 in absolute mode. -/
theorem c10_e_anywhere_classification_witness :
    (processLine cfgAbs 1 970 ⟨0, 0, 7⟩ ("G1 X1 Y2 FEED")).2.last_extrusion = 0 :=
  c10_e_anywhere_classification.2.1 cfgAbs 1 970 ⟨0, 0, 7⟩ ("G1 X1 Y2 FEED") rfl
    (by decide) (by decide) (by decide) (by decide)

end ColorChange
